import Mathlib

/-!
Shallow embedding of the `shellrunner` JSON-RPC server (`src/main.go`).

The server keeps three pieces of global mutable state protected by locks:
a map `jobs` from string job ids to `*BackgroundJob`, a `jobCounter`
(`uint64`) used to mint sequential ids, and an `ExecutionStatistics`
aggregate.  We model that state as a `ServerState` record; the map is an
association list whose insert removes any older binding of the same key,
so it has exactly the lookup semantics of a Go map.

Wall-clock instants and durations (`time.Time`, `time.Duration`) are
modelled as integers in an abstract time unit; the conversion of a
duration to float seconds done by `time.Duration.Seconds` for the wire
replies is presentational scaling and is not modelled (replies carry the
integral duration, and the statistics average is an exact rational).

The outcome of `exec.Cmd.Run` is modelled by `CmdResult`: `ok` for a nil
error, `exitErr c` for an `*exec.ExitError` with exit code `c`, and
`startErr` for any other error (spawn failure).  The bytes the command
writes to its stdout/stderr buffers are part of the same `ExecOutcome`
parameter.

Each RPC method `f` of the Go receiver becomes a function
`ServerState → args → ServerState × Except String reply`, the `Except`
mirroring the Go `error` return (the `.error` payload is the message
built by `fmt.Errorf`).
-/

/-- Maps a decimal digit value to its character, `digitChar 3 = '3'`. -/
def digitChar : Nat → Char
  | 0 => '0' | 1 => '1' | 2 => '2' | 3 => '3' | 4 => '4'
  | 5 => '5' | 6 => '6' | 7 => '7' | 8 => '8' | 9 => '9'
  | _ => '*'

/-- Fuel-driven most-significant-first decimal digit list of `n`
(empty for `n = 0`); the fuel argument only forces structural
termination and is irrelevant as long as it is at least `n`. -/
def toDecimalAux : Nat → Nat → List Char
  | 0, _ => []
  | fuel + 1, n => if n = 0 then [] else toDecimalAux fuel (n / 10) ++ [digitChar (n % 10)]

/-- Embedding of Go's `fmt.Sprintf("%d", n)` for a `uint64` counter
value: the usual decimal rendering of `n`. -/
def formatNat (n : Nat) : String :=
  if n = 0 then "0" else String.mk (toDecimalAux n n)

/-- Embedding of the Go struct `BackgroundJob` (src/main.go:20).  The
`Cmd *exec.Cmd` handle is an opaque OS resource and is not part of the
model; the two `bytes.Buffer` fields are modelled by the strings they
hold.  `EndTime`'s Go zero value is modelled by the integer 0. -/
structure BackgroundJob where
  Command : String
  Stdout : String
  Stderr : String
  StartTime : Int
  EndTime : Int
  Status : String
  ExitCode : Int
  deriving Repr, DecidableEq

/-- Embedding of the Go struct `ExecutionStatistics` (src/main.go:32). -/
structure ExecutionStatistics where
  TotalCount : Int
  TotalDuration : Int
  MaxDuration : Int
  deriving Repr, DecidableEq

/-- The server's global mutable state: the `jobs` map (association list
with Go-map lookup semantics), the `jobCounter`, and the statistics
aggregate. -/
structure ServerState where
  jobs : List (String × BackgroundJob)
  jobCounter : Nat
  stats : ExecutionStatistics
  deriving Repr, DecidableEq

/-- The state of the freshly started server: empty registry, zero
counter, zero statistics. -/
def initState : ServerState :=
  { jobs := [], jobCounter := 0,
    stats := { TotalCount := 0, TotalDuration := 0, MaxDuration := 0 } }

/-- Result of `exec.Cmd.Run`: nil error, `*exec.ExitError` carrying an
exit code, or any other error (the command could not be launched). -/
inductive CmdResult where
  | ok : CmdResult
  | exitErr : Int → CmdResult
  | startErr : CmdResult
  deriving Repr, DecidableEq

/-- Everything the external command contributes: the bytes written to
the stdout/stderr buffers and the `Run` error classification. -/
structure ExecOutcome where
  stdout : String
  stderr : String
  result : CmdResult
  deriving Repr, DecidableEq

/-- Go-map lookup `jobs[id]` on the association list. -/
def lookupJob (js : List (String × BackgroundJob)) (id : String) : Option BackgroundJob :=
  (js.find? (fun p => p.1 == id)).map Prod.snd

/-- Go-map insert `jobs[id] = job`: any older binding of `id` is
replaced. -/
def insertJob (js : List (String × BackgroundJob)) (id : String) (j : BackgroundJob) :
    List (String × BackgroundJob) :=
  (id, j) :: js.filter (fun p => p.1 != id)

/-- Go-map `delete(jobs, id)`. -/
def eraseJob (js : List (String × BackgroundJob)) (id : String) :
    List (String × BackgroundJob) :=
  js.filter (fun p => p.1 != id)

/-- In-place mutation of the record behind `jobs[id]` through its
pointer (the background goroutine's completion write). -/
def updateJob (js : List (String × BackgroundJob)) (id : String)
    (f : BackgroundJob → BackgroundJob) : List (String × BackgroundJob) :=
  js.map (fun p => if p.1 == id then (p.1, f p.2) else p)

/-- The terminal-status test used by `ReleaseAll` (src/main.go:250). -/
def isTerminal (s : String) : Bool :=
  s == "exited" || s == "errored"

/-- `updateStats` (src/main.go:52): bump the completed-execution count,
accumulate the duration, and raise the maximum when exceeded. -/
def updateStats (s : ExecutionStatistics) (duration : Int) : ExecutionStatistics :=
  { TotalCount := s.TotalCount + 1,
    TotalDuration := s.TotalDuration + duration,
    MaxDuration := if duration > s.MaxDuration then duration else s.MaxDuration }

/-- The exit-code classification of `Run` (src/main.go:89): 0 for a nil
error, the `ExitError` code, and -1 for any other error. -/
def exitCodeOf : CmdResult → Int
  | .ok => 0
  | .exitErr c => c
  | .startErr => -1

/-- Embedding of the Go struct `RunArgs` (src/main.go:67). -/
structure RunArgs where
  Command : String
  Keep : Bool
  deriving Repr, DecidableEq

/-- Embedding of the Go struct `OutputArgs` (src/main.go:199). -/
structure OutputArgs where
  ID : String
  Release : Bool
  deriving Repr, DecidableEq

/-- The reply map of `Run`: it always carries the `stdout`, `stderr`
and `exit_code` keys, and carries `job_id` exactly when `Keep` is set. -/
structure RunReply where
  stdout : String
  stderr : String
  exit_code : Int
  job_id : Option String
  deriving Repr, DecidableEq

/-- The reply map of `Status`.  `start_time` is formatted RFC3339 on
the wire and `duration_seconds` is converted to float seconds; both are
modelled by the underlying instants/durations. -/
structure StatusReply where
  command : String
  status : String
  start_time : Int
  duration_seconds : Int
  deriving Repr, DecidableEq

/-- The reply map of `Output`. -/
structure OutputReply where
  stdout : String
  stderr : String
  deriving Repr, DecidableEq

/-- The reply map of `Statistics`; the average is exact (the Go code
returns the float quotient of the running sums). -/
structure StatisticsReply where
  total_count : Int
  average_duration_seconds : Rat
  max_duration_seconds : Int
  deriving Repr, DecidableEq

namespace ShellRunner

/-- `ShellRunner.Run` (src/main.go:73): run the command to completion,
record its duration in the statistics, reply with captured output and
classified exit code, and when `Keep` is set mint the next id and
insert a record already in terminal state `"exited"`.  The method ends
in an unconditional `return nil`, so the call itself cannot fail. -/
def Run (st : ServerState) (args : RunArgs) (outcome : ExecOutcome)
    (startTime endTime : Int) : ServerState × Except String RunReply :=
  let stats' := updateStats st.stats (endTime - startTime)
  let exitCode := exitCodeOf outcome.result
  if args.Keep then
    let counter' := st.jobCounter + 1
    let id := formatNat counter'
    let job : BackgroundJob :=
      { Command := args.Command, Stdout := outcome.stdout, Stderr := outcome.stderr,
        StartTime := startTime, EndTime := endTime, Status := "exited", ExitCode := exitCode }
    ({ jobs := insertJob st.jobs id job, jobCounter := counter', stats := stats' },
     .ok { stdout := outcome.stdout, stderr := outcome.stderr,
           exit_code := exitCode, job_id := some id })
  else
    ({ st with stats := stats' },
     .ok { stdout := outcome.stdout, stderr := outcome.stderr,
           exit_code := exitCode, job_id := none })

/-- `ShellRunner.Background` (src/main.go:124), up to spawning the
goroutine: mint the next id under the lock, insert a `"running"`
record with `StartTime = now`, and reply with the id. -/
def Background (st : ServerState) (cmd : String) (now : Int) :
    ServerState × Except String String :=
  let counter' := st.jobCounter + 1
  let id := formatNat counter'
  let job : BackgroundJob :=
    { Command := cmd, Stdout := "", Stderr := "",
      StartTime := now, EndTime := 0, Status := "running", ExitCode := 0 }
  ({ jobs := insertJob st.jobs id job, jobCounter := counter', stats := st.stats }, .ok id)

/-- The body of the goroutine spawned by `Background`
(src/main.go:145), running when the command terminates: set `EndTime`,
report the duration to the statistics, and under the lock write the
terminal status and exit code into the job struct (a no-op on the
registry when the record was already released; the statistics update
still happens).  The output captured in the job's buffers while the
command ran is in place by this point, which the model expresses by
writing it together with the completion. -/
def backgroundFinish (st : ServerState) (id : String) (startTime : Int)
    (outcome : ExecOutcome) (endTime : Int) : ServerState :=
  let stats' := updateStats st.stats (endTime - startTime)
  { jobs := updateJob st.jobs id (fun j =>
      { j with EndTime := endTime, Stdout := outcome.stdout, Stderr := outcome.stderr,
               Status := match outcome.result with
                         | .ok => "exited"
                         | .exitErr _ => "exited"
                         | .startErr => "errored",
               ExitCode := match outcome.result with
                           | .ok => 0
                           | .exitErr c => c
                           | .startErr => -1 }),
    jobCounter := st.jobCounter, stats := stats' }

/-- `ShellRunner.Status` (src/main.go:173): not-found error for an
absent id, otherwise the record's command, status, start time, and the
duration `now - start` while running or `end - start` once terminal. -/
def Status (st : ServerState) (id : String) (now : Int) :
    ServerState × Except String StatusReply :=
  match lookupJob st.jobs id with
  | none => (st, .error ("job with id " ++ id ++ " not found"))
  | some job =>
    (st, .ok { command := job.Command, status := job.Status, start_time := job.StartTime,
               duration_seconds :=
                 if job.Status == "running" then now - job.StartTime
                 else job.EndTime - job.StartTime })

/-- `ShellRunner.Output` (src/main.go:205): not-found error for an
absent id, otherwise the currently captured stdout/stderr; when
`Release` is set the record is deleted in the same critical section. -/
def Output (st : ServerState) (args : OutputArgs) :
    ServerState × Except String OutputReply :=
  match lookupJob st.jobs args.ID with
  | none => (st, .error ("job with id " ++ args.ID ++ " not found"))
  | some job =>
    (if args.Release then { st with jobs := eraseJob st.jobs args.ID } else st,
     .ok { stdout := job.Stdout, stderr := job.Stderr })

/-- `ShellRunner.Release` (src/main.go:227): not-found error for an
absent id, otherwise delete the record and reply `true`. -/
def Release (st : ServerState) (id : String) :
    ServerState × Except String Bool :=
  match lookupJob st.jobs id with
  | none => (st, .error ("job with id " ++ id ++ " not found"))
  | some _ => ({ st with jobs := eraseJob st.jobs id }, .ok true)

/-- `ShellRunner.ReleaseAll` (src/main.go:243): delete every record
whose status is `"exited"` or `"errored"` and reply with the number
deleted; running records are untouched. -/
def ReleaseAll (st : ServerState) : ServerState × Except String Int :=
  ({ st with jobs := st.jobs.filter (fun p => !isTerminal p.2.Status) },
   .ok ((st.jobs.filter (fun p => isTerminal p.2.Status)).length : Int))

/-- `ShellRunner.List` (src/main.go:261): the ids currently tracked. -/
def ListJobs (st : ServerState) : ServerState × Except String (List String) :=
  (st, .ok (st.jobs.map Prod.fst))

/-- `ShellRunner.Statistics` (src/main.go:276): the aggregate count,
the exact average `TotalDuration / TotalCount` (0 when the count is 0),
and the maximum duration, all read from the running sums. -/
def Statistics (st : ServerState) : ServerState × Except String StatisticsReply :=
  (st, .ok { total_count := st.stats.TotalCount,
             average_duration_seconds :=
               if st.stats.TotalCount > 0 then
                 (st.stats.TotalDuration : Rat) / (st.stats.TotalCount : Rat)
               else 0,
             max_duration_seconds := st.stats.MaxDuration })

end ShellRunner

/-- One engine event, as dispatched by the server loop: one RPC call,
or the completion callback of a background goroutine.  `runOp` carries
the outcome of the synchronous command together with the two `time.Now`
readings around it; `finishOp` carries what the goroutine closure holds
(the job id, the job's start time, the command outcome, and the
completion instant). -/
inductive Op where
  | runOp : RunArgs → ExecOutcome → Int → Int → Op
  | backgroundOp : String → Int → Op
  | finishOp : String → Int → ExecOutcome → Int → Op
  | statusOp : String → Int → Op
  | outputOp : OutputArgs → Op
  | releaseOp : String → Op
  | releaseAllOp : Op
  | listOp : Op
  | statisticsOp : Op
  deriving Repr, DecidableEq

/-- The state transition of one event (replies discarded). -/
def step (st : ServerState) : Op → ServerState
  | .runOp args o t0 t1 => (ShellRunner.Run st args o t0 t1).1
  | .backgroundOp c t0 => (ShellRunner.Background st c t0).1
  | .finishOp id t0 o t1 => ShellRunner.backgroundFinish st id t0 o t1
  | .statusOp id now => (ShellRunner.Status st id now).1
  | .outputOp args => (ShellRunner.Output st args).1
  | .releaseOp id => (ShellRunner.Release st id).1
  | .releaseAllOp => (ShellRunner.ReleaseAll st).1
  | .listOp => (ShellRunner.ListJobs st).1
  | .statisticsOp => (ShellRunner.Statistics st).1

/-- Runs a sequence of events from a state. -/
def execTrace (st : ServerState) (ops : List Op) : ServerState :=
  ops.foldl step st

/-- Whether an event inserts a new job record and mints an id: a kept
synchronous run or an asynchronous launch. -/
def createsJob : Op → Bool
  | .runOp args _ _ _ => args.Keep
  | .backgroundOp _ _ => true
  | _ => false

/-- The numeric ids handed out along a trace, in order: each creating
event assigns the successor of the counter at that moment (the id put
on the wire is its decimal rendering `formatNat`). -/
def assignedIds : ServerState → List Op → List Nat
  | _, [] => []
  | st, op :: ops =>
    if createsJob op then (st.jobCounter + 1) :: assignedIds (step st op) ops
    else assignedIds (step st op) ops

/-- The durations of the completed executions of a trace, in order: one
entry per synchronous run (it completes within the call) and one per
background completion callback. -/
def completionsOf : List Op → List Int
  | [] => []
  | .runOp _ _ t0 t1 :: ops => (t1 - t0) :: completionsOf ops
  | .finishOp _ t0 _ t1 :: ops => (t1 - t0) :: completionsOf ops
  | _ :: ops => completionsOf ops

/-- Well-formedness of a server state: the registry keys are pairwise
distinct, and every key is the decimal rendering of some counter value
already consumed.  This holds in every reachable state and is what
makes freshly minted ids collision-free. -/
def WfState (st : ServerState) : Prop :=
  (st.jobs.map Prod.fst).Nodup ∧
  ∀ key ∈ st.jobs.map Prod.fst, ∃ k, k ≤ st.jobCounter ∧ key = formatNat k

/-- The id either no longer resolves, or resolves to a record in a
terminal status. -/
def TerminalOrGone (st : ServerState) (id : String) : Prop :=
  lookupJob st.jobs id = none ∨
  ∃ j, lookupJob st.jobs id = some j ∧ isTerminal j.Status = true

/-- Reads the value back out of a most-significant-first decimal digit
list; the left inverse of `toDecimalAux` used to prove `formatNat`
injective. -/
def decValue (l : List Char) : Nat :=
  l.foldl (fun acc c => acc * 10 + (c.toNat - 48)) 0

/-- The registry state after one kept synchronous run whose command
could not be launched (spawn failure, exit code classified as -1). -/
def spawnFailState : ServerState :=
  (ShellRunner.Run initState { Command := "no-such-binary", Keep := true }
    { stdout := "", stderr := "", result := CmdResult.startErr } 0 5).1

/-- A sample running job record used in concrete witnesses. -/
def runningJob : BackgroundJob :=
  { Command := "c", Stdout := "", Stderr := "", StartTime := 3,
    EndTime := 0, Status := "running", ExitCode := 0 }

/-- A sample finished job record used in concrete witnesses. -/
def exitedJob : BackgroundJob :=
  { Command := "e", Stdout := "out", Stderr := "err", StartTime := 0,
    EndTime := 2, Status := "exited", ExitCode := 0 }

/-- A registry holding one running job under id "1". -/
def oneRunningState : ServerState :=
  { jobs := [("1", runningJob)], jobCounter := 1,
    stats := { TotalCount := 0, TotalDuration := 0, MaxDuration := 0 } }

/-- A registry holding one finished job (id "1") and one running job
(id "2"). -/
def mixedState : ServerState :=
  { jobs := [("1", exitedJob), ("2", runningJob)], jobCounter := 2,
    stats := { TotalCount := 1, TotalDuration := 2, MaxDuration := 2 } }

/-! ### Decimal formatting -/

theorem digitChar_val : ∀ d < 10, (digitChar d).toNat - 48 = d := by decide

theorem decValue_append_digit (l : List Char) (c : Char) :
    decValue (l ++ [c]) = decValue l * 10 + (c.toNat - 48) := by
  simp [decValue, List.foldl_append]

theorem decValue_toDecimalAux : ∀ fuel n, n ≤ fuel → decValue (toDecimalAux fuel n) = n := by
  intro fuel
  induction fuel with
  | zero =>
    intro n h
    have hn : n = 0 := Nat.le_zero.1 h
    subst hn
    rfl
  | succ f ih =>
    intro n h
    by_cases h0 : n = 0
    · subst h0
      simp [toDecimalAux, decValue]
    · have hlt : n / 10 < n := Nat.div_lt_self (Nat.pos_of_ne_zero h0) (by norm_num)
      have h10 : n / 10 ≤ f := by omega
      have hd : (digitChar (n % 10)).toNat - 48 = n % 10 :=
        digitChar_val _ (Nat.mod_lt _ (by norm_num))
      rw [toDecimalAux, if_neg h0, decValue_append_digit, ih _ h10, hd]
      omega

theorem formatNat_injective : Function.Injective formatNat := by
  intro a b h
  unfold formatNat at h
  have hzero : ∀ m : Nat, m ≠ 0 → String.mk (toDecimalAux m m) ≠ "0" := by
    intro m hm hcon
    have hdata : toDecimalAux m m = ['0'] := by
      have := congrArg String.data hcon
      simpa using this
    have := decValue_toDecimalAux m m le_rfl
    rw [hdata] at this
    simp [decValue] at this
    omega
  by_cases ha : a = 0 <;> by_cases hb : b = 0
  · omega
  · rw [if_pos ha, if_neg hb] at h
    exact absurd h.symm (hzero b hb)
  · rw [if_neg ha, if_pos hb] at h
    exact absurd h (hzero a ha)
  · rw [if_neg ha, if_neg hb] at h
    have hdata : toDecimalAux a a = toDecimalAux b b := congrArg String.data h
    have h1 := decValue_toDecimalAux a a le_rfl
    have h2 := decValue_toDecimalAux b b le_rfl
    rw [hdata] at h1
    omega

/-! ### Association-list registry lemmas -/

theorem beq_key_eq_true {a b : String} (h : a = b) : (a == b) = true := by
  simp [h]

theorem beq_key_eq_false {a b : String} (h : ¬a = b) : (a == b) = false := by
  simpa using h

theorem bne_key_eq_true {a b : String} (h : ¬a = b) : (a != b) = true := by
  simp [h]

theorem bne_key_eq_false {a b : String} (h : a = b) : (a != b) = false := by
  simp [h]

theorem find?_key_cons_pos (ps : List (String × BackgroundJob)) (p : String × BackgroundJob)
    (id : String) (h : p.1 = id) :
    List.find? (fun x => x.1 == id) (p :: ps) = some p := by
  rw [List.find?_cons, beq_key_eq_true h]

theorem find?_key_cons_neg (ps : List (String × BackgroundJob)) (p : String × BackgroundJob)
    (id : String) (h : ¬p.1 = id) :
    List.find? (fun x => x.1 == id) (p :: ps) = List.find? (fun x => x.1 == id) ps := by
  rw [List.find?_cons, beq_key_eq_false h]

theorem lookupJob_cons_pos (ps : List (String × BackgroundJob)) (p : String × BackgroundJob)
    (id : String) (h : p.1 = id) : lookupJob (p :: ps) id = some p.2 := by
  unfold lookupJob
  rw [find?_key_cons_pos ps p id h]
  rfl

theorem lookupJob_cons_neg (ps : List (String × BackgroundJob)) (p : String × BackgroundJob)
    (id : String) (h : ¬p.1 = id) : lookupJob (p :: ps) id = lookupJob ps id := by
  unfold lookupJob
  rw [find?_key_cons_neg ps p id h]

theorem filter_key_cons_keep (ps : List (String × BackgroundJob)) (p : String × BackgroundJob)
    (id : String) (h : ¬p.1 = id) :
    List.filter (fun x => x.1 != id) (p :: ps) = p :: List.filter (fun x => x.1 != id) ps := by
  rw [List.filter_cons, bne_key_eq_true h, if_pos rfl]

theorem filter_key_cons_drop (ps : List (String × BackgroundJob)) (p : String × BackgroundJob)
    (id : String) (h : p.1 = id) :
    List.filter (fun x => x.1 != id) (p :: ps) = List.filter (fun x => x.1 != id) ps := by
  rw [List.filter_cons, bne_key_eq_false h, if_neg (by decide)]

theorem lookupJob_insert_self (js : List (String × BackgroundJob)) (id : String)
    (j : BackgroundJob) : lookupJob (insertJob js id j) id = some j := by
  unfold insertJob
  rw [lookupJob_cons_pos _ _ _ rfl]

theorem lookupJob_filter_ne (js : List (String × BackgroundJob)) (id id' : String)
    (h : ¬id' = id) :
    lookupJob (js.filter (fun x => x.1 != id)) id' = lookupJob js id' := by
  induction js with
  | nil => rfl
  | cons p ps ih =>
    by_cases hp : p.1 = id
    · have hne : ¬p.1 = id' := fun hc => h (hp ▸ hc ▸ rfl)
      rw [filter_key_cons_drop ps p id hp, lookupJob_cons_neg ps p id' hne, ih]
    · rw [filter_key_cons_keep ps p id hp]
      by_cases hq : p.1 = id'
      · rw [lookupJob_cons_pos _ p id' hq, lookupJob_cons_pos ps p id' hq]
      · rw [lookupJob_cons_neg _ p id' hq, lookupJob_cons_neg ps p id' hq, ih]

theorem lookupJob_insert_ne (js : List (String × BackgroundJob)) (id id' : String)
    (j : BackgroundJob) (h : ¬id' = id) :
    lookupJob (insertJob js id j) id' = lookupJob js id' := by
  unfold insertJob
  rw [lookupJob_cons_neg _ _ _ (fun hc => h (Eq.symm hc)), lookupJob_filter_ne js id id' h]

theorem lookupJob_erase_self (js : List (String × BackgroundJob)) (id : String) :
    lookupJob (eraseJob js id) id = none := by
  unfold lookupJob eraseJob
  rw [List.find?_eq_none.2]
  · rfl
  · intro x hx
    have := (List.mem_filter.1 hx).2
    simpa using this

theorem lookupJob_erase_ne (js : List (String × BackgroundJob)) (id id' : String)
    (h : ¬id' = id) : lookupJob (eraseJob js id) id' = lookupJob js id' := by
  unfold eraseJob
  exact lookupJob_filter_ne js id id' h

theorem lookupJob_update_self (js : List (String × BackgroundJob)) (id : String)
    (f : BackgroundJob → BackgroundJob) :
    lookupJob (updateJob js id f) id = (lookupJob js id).map f := by
  induction js with
  | nil => rfl
  | cons p ps ih =>
    unfold updateJob at ih ⊢
    rw [List.map_cons]
    by_cases hp : p.1 = id
    · rw [if_pos (beq_key_eq_true hp), lookupJob_cons_pos ps p id hp,
          lookupJob_cons_pos _ (p.1, f p.2) id hp]
      rfl
    · rw [if_neg (by rw [beq_key_eq_false hp]; decide), lookupJob_cons_neg _ p id hp,
          lookupJob_cons_neg ps p id hp, ih]

theorem lookupJob_update_ne (js : List (String × BackgroundJob)) (id id' : String)
    (f : BackgroundJob → BackgroundJob) (h : ¬id' = id) :
    lookupJob (updateJob js id f) id' = lookupJob js id' := by
  induction js with
  | nil => rfl
  | cons p ps ih =>
    unfold updateJob at ih ⊢
    rw [List.map_cons]
    by_cases hp : p.1 = id
    · have hne : ¬p.1 = id' := fun hc => h (hp ▸ hc ▸ rfl)
      rw [if_pos (beq_key_eq_true hp), lookupJob_cons_neg _ (p.1, f p.2) id' hne,
          lookupJob_cons_neg ps p id' hne, ih]
    · rw [if_neg (by rw [beq_key_eq_false hp]; decide)]
      by_cases hq : p.1 = id'
      · rw [lookupJob_cons_pos _ p id' hq, lookupJob_cons_pos ps p id' hq]
      · rw [lookupJob_cons_neg _ p id' hq, lookupJob_cons_neg ps p id' hq, ih]

theorem lookupJob_mem_keys (js : List (String × BackgroundJob)) (id : String)
    (j : BackgroundJob) (h : lookupJob js id = some j) : id ∈ js.map Prod.fst := by
  unfold lookupJob at h
  rw [Option.map_eq_some'] at h
  obtain ⟨p, hp, hpj⟩ := h
  have hmem := List.mem_of_find?_eq_some hp
  have hkey : p.1 = id := by simpa using List.find?_some hp
  exact hkey ▸ List.mem_map_of_mem Prod.fst hmem

theorem lookupJob_filter_of_nodup (js : List (String × BackgroundJob))
    (q : String × BackgroundJob → Bool) (id : String) (j : BackgroundJob)
    (hnd : (js.map Prod.fst).Nodup) (h : lookupJob js id = some j) :
    lookupJob (js.filter q) id = if q (id, j) then some j else none := by
  induction js with
  | nil => simp [lookupJob] at h
  | cons p ps ih =>
    rw [List.map_cons] at hnd
    have hnd2 := List.nodup_cons.1 hnd
    by_cases hp : p.1 = id
    · have hj : p.2 = j := by
        rw [lookupJob_cons_pos ps p id hp] at h
        simpa using h
      have hid : p = (id, j) := by
        cases p
        simp only [Prod.mk.injEq]
        exact ⟨hp, hj⟩
      have hnotin : id ∉ ps.map Prod.fst := hp ▸ hnd2.1
      have hnone : lookupJob (ps.filter q) id = none := by
        unfold lookupJob
        rw [List.find?_eq_none.2]
        · rfl
        · intro x hx
          have hxmem := (List.mem_filter.1 hx).1
          simp only [beq_iff_eq]
          intro hc
          exact hnotin (hc ▸ List.mem_map_of_mem Prod.fst hxmem)
      subst hid
      by_cases hq : q (id, j) = true
      · rw [if_pos hq, List.filter_cons, if_pos hq, lookupJob_cons_pos _ _ _ rfl]
      · rw [if_neg hq, List.filter_cons, if_neg hq]
        exact hnone
    · have h' : lookupJob ps id = some j := by
        rwa [lookupJob_cons_neg ps p id hp] at h
      rw [List.filter_cons]
      by_cases hq : q p = true
      · rw [if_pos hq, lookupJob_cons_neg _ p id hp]
        exact ih hnd2.2 h'
      · rw [if_neg hq]
        exact ih hnd2.2 h'

theorem keys_updateJob (js : List (String × BackgroundJob)) (id : String)
    (f : BackgroundJob → BackgroundJob) :
    (updateJob js id f).map Prod.fst = js.map Prod.fst := by
  unfold updateJob
  rw [List.map_map]
  apply List.map_congr_left
  intro p _
  by_cases hp : p.1 = id <;> simp [hp]

/-! ### Shape of a single step -/

theorem lookupJob_filter_none (js : List (String × BackgroundJob))
    (q : String × BackgroundJob → Bool) (id : String)
    (h : lookupJob js id = none) : lookupJob (js.filter q) id = none := by
  unfold lookupJob at h ⊢
  rw [Option.map_eq_none'] at h
  rw [List.find?_eq_none.2]
  · rfl
  · intro x hx
    exact List.find?_eq_none.1 h x (List.mem_filter.1 hx).1

theorem step_shape (st : ServerState) (op : Op) :
    ((step st op).jobs = st.jobs ∧ (step st op).jobCounter = st.jobCounter) ∨
    (∃ id, (step st op).jobs = eraseJob st.jobs id ∧
      (step st op).jobCounter = st.jobCounter) ∨
    ((step st op).jobs = st.jobs.filter (fun p => !isTerminal p.2.Status) ∧
      (step st op).jobCounter = st.jobCounter) ∨
    (∃ id f, (step st op).jobs = updateJob st.jobs id f ∧
      (step st op).jobCounter = st.jobCounter ∧
      ∀ j : BackgroundJob, isTerminal (f j).Status = true) ∨
    (∃ j, (step st op).jobs = insertJob st.jobs (formatNat (st.jobCounter + 1)) j ∧
      (step st op).jobCounter = st.jobCounter + 1) := by
  cases op with
  | runOp args o t0 t1 =>
    cases hk : args.Keep
    · left
      constructor <;> simp [step, ShellRunner.Run, hk]
    · right; right; right; right
      refine ⟨{ Command := args.Command, Stdout := o.stdout, Stderr := o.stderr,
                StartTime := t0, EndTime := t1, Status := "exited",
                ExitCode := exitCodeOf o.result }, ?_, ?_⟩ <;>
        simp [step, ShellRunner.Run, hk]
  | backgroundOp c t0 =>
    right; right; right; right
    refine ⟨{ Command := c, Stdout := "", Stderr := "", StartTime := t0,
              EndTime := 0, Status := "running", ExitCode := 0 }, ?_, ?_⟩ <;>
      simp [step, ShellRunner.Background]
  | finishOp id t0 o t1 =>
    right; right; right; left
    refine ⟨id, fun j =>
      { j with EndTime := t1, Stdout := o.stdout, Stderr := o.stderr,
               Status := match o.result with
                         | .ok => "exited"
                         | .exitErr _ => "exited"
                         | .startErr => "errored",
               ExitCode := match o.result with
                           | .ok => 0
                           | .exitErr c => c
                           | .startErr => -1 }, ?_, ?_, ?_⟩
    · simp [step, ShellRunner.backgroundFinish]
    · simp [step, ShellRunner.backgroundFinish]
    · intro j
      cases o.result <;> rfl
  | statusOp id now =>
    left
    cases h : lookupJob st.jobs id <;> simp [step, ShellRunner.Status, h]
  | outputOp args =>
    cases h : lookupJob st.jobs args.ID with
    | none => left; simp [step, ShellRunner.Output, h]
    | some job =>
      cases hr : args.Release
      · left
        simp [step, ShellRunner.Output, h, hr]
      · right; left
        exact ⟨args.ID, by simp [step, ShellRunner.Output, h, hr],
          by simp [step, ShellRunner.Output, h, hr]⟩
  | releaseOp id =>
    cases h : lookupJob st.jobs id with
    | none => left; simp [step, ShellRunner.Release, h]
    | some job =>
      right; left
      exact ⟨id, by simp [step, ShellRunner.Release, h],
        by simp [step, ShellRunner.Release, h]⟩
  | releaseAllOp =>
    right; right; left
    constructor <;> simp [step, ShellRunner.ReleaseAll]
  | listOp =>
    left
    constructor <;> simp [step, ShellRunner.ListJobs]
  | statisticsOp =>
    left
    constructor <;> simp [step, ShellRunner.Statistics]

theorem jobCounter_mono_step (st : ServerState) (op : Op) :
    st.jobCounter ≤ (step st op).jobCounter := by
  rcases step_shape st op with ⟨_, h⟩ | ⟨id, _, h⟩ | ⟨_, h⟩ | ⟨id, f, _, h, _⟩ | ⟨j, _, h⟩ <;>
    omega

/-! ### Well-formedness is preserved -/

theorem wf_init : WfState initState := by
  constructor <;> simp [initState, WfState]

theorem wf_step (st : ServerState) (op : Op) (hwf : WfState st) :
    WfState (step st op) := by
  obtain ⟨hnd, hkeys⟩ := hwf
  have hmono := jobCounter_mono_step st op
  rcases step_shape st op with ⟨hj, hc⟩ | ⟨id, hj, hc⟩ | ⟨hj, hc⟩ |
    ⟨id, f, hj, hc, _⟩ | ⟨j, hj, hc⟩
  · rw [WfState, hj, hc]
    exact ⟨hnd, hkeys⟩
  · rw [WfState, hj, hc]
    have hsub := (List.filter_sublist st.jobs
      (p := fun p => p.1 != id)).map Prod.fst
    exact ⟨hnd.sublist hsub, fun key hkey => hkeys key (hsub.subset hkey)⟩
  · rw [WfState, hj, hc]
    have hsub := (List.filter_sublist st.jobs
      (p := fun p => !isTerminal p.2.Status)).map Prod.fst
    exact ⟨hnd.sublist hsub, fun key hkey => hkeys key (hsub.subset hkey)⟩
  · rw [WfState, hj, hc, keys_updateJob]
    exact ⟨hnd, hkeys⟩
  · rw [WfState, hj, hc]
    have hsub := (List.filter_sublist st.jobs
      (p := fun p => p.1 != formatNat (st.jobCounter + 1))).map Prod.fst
    constructor
    · rw [insertJob, List.map_cons, List.nodup_cons]
      constructor
      · intro hmem
        obtain ⟨p, hp, hpk⟩ := List.mem_map.1 hmem
        have := (List.mem_filter.1 hp).2
        rw [hpk] at this
        simp at this
      · exact hnd.sublist hsub
    · intro key hkey
      rw [insertJob, List.map_cons] at hkey
      rcases List.mem_cons.1 hkey with hnew | hold
      · exact ⟨st.jobCounter + 1, le_rfl, hnew⟩
      · obtain ⟨k, hk1, hk2⟩ := hkeys key (hsub.subset hold)
        exact ⟨k, by omega, hk2⟩

theorem execTrace_append (st : ServerState) (l1 l2 : List Op) :
    execTrace st (l1 ++ l2) = execTrace (execTrace st l1) l2 :=
  List.foldl_append step st l1 l2

theorem wf_trace (ops : List Op) : ∀ st : ServerState, WfState st →
    WfState (execTrace st ops) := by
  induction ops with
  | nil => exact fun st h => h
  | cons op ops ih => exact fun st h => ih (step st op) (wf_step st op h)

theorem jobCounter_mono_trace (ops : List Op) : ∀ st : ServerState,
    st.jobCounter ≤ (execTrace st ops).jobCounter := by
  induction ops with
  | nil => exact fun _ => le_rfl
  | cons op ops ih =>
    intro st
    exact le_trans (jobCounter_mono_step st op) (ih (step st op))

/-! ### Terminal statuses are stable -/

theorem terminalOrGone_step (st : ServerState) (op : Op) (id : String)
    (hwf : WfState st) (hk : ∃ k, k ≤ st.jobCounter ∧ id = formatNat k)
    (h : TerminalOrGone st id) : TerminalOrGone (step st op) id := by
  rcases step_shape st op with ⟨hj, hc⟩ | ⟨id₀, hj, hc⟩ | ⟨hj, hc⟩ |
    ⟨id₀, f, hj, hc, hfterm⟩ | ⟨j, hj, hc⟩
  · rw [TerminalOrGone, hj]
    exact h
  · rw [TerminalOrGone, hj]
    by_cases he : id = id₀
    · subst he
      exact Or.inl (lookupJob_erase_self st.jobs id)
    · rw [lookupJob_erase_ne st.jobs id₀ id he]
      exact h
  · rw [TerminalOrGone, hj]
    rcases h with hnone | ⟨j, hjob, hterm⟩
    · exact Or.inl (lookupJob_filter_none st.jobs _ id hnone)
    · left
      rw [lookupJob_filter_of_nodup st.jobs _ id j hwf.1 hjob]
      simp [hterm]
  · rw [TerminalOrGone, hj]
    by_cases he : id = id₀
    · subst he
      rcases h with hnone | ⟨j, hjob, _⟩
      · rw [lookupJob_update_self, hnone]
        exact Or.inl rfl
      · rw [lookupJob_update_self, hjob]
        exact Or.inr ⟨f j, rfl, hfterm j⟩
    · rw [lookupJob_update_ne st.jobs id₀ id f he]
      exact h
  · rw [TerminalOrGone, hj]
    obtain ⟨k, hk1, hk2⟩ := hk
    have hne : ¬id = formatNat (st.jobCounter + 1) := by
      rw [hk2]
      intro hc2
      have := formatNat_injective hc2
      omega
    rw [lookupJob_insert_ne st.jobs _ id j hne]
    exact h

theorem terminalOrGone_trace (ops : List Op) : ∀ st : ServerState, ∀ id : String,
    WfState st → (∃ k, k ≤ st.jobCounter ∧ id = formatNat k) →
    TerminalOrGone st id → TerminalOrGone (execTrace st ops) id := by
  induction ops with
  | nil => exact fun _ _ _ _ h => h
  | cons op ops ih =>
    intro st id hwf hk h
    have hmono := jobCounter_mono_step st op
    obtain ⟨k, hk1, hk2⟩ := hk
    exact ih (step st op) id (wf_step st op hwf) ⟨k, by omega, hk2⟩
      (terminalOrGone_step st op id hwf ⟨k, hk1, hk2⟩ h)

/-! ### Minted identifiers along a trace -/

theorem step_creates_counter (st : ServerState) (op : Op) (h : createsJob op = true) :
    (step st op).jobCounter = st.jobCounter + 1 := by
  cases op with
  | runOp args o t0 t1 =>
    have hk : args.Keep = true := by simpa [createsJob] using h
    simp [step, ShellRunner.Run, hk]
  | backgroundOp c t0 => simp [step, ShellRunner.Background]
  | finishOp id t0 o t1 => simp [createsJob] at h
  | statusOp id now => simp [createsJob] at h
  | outputOp args => simp [createsJob] at h
  | releaseOp id => simp [createsJob] at h
  | releaseAllOp => simp [createsJob] at h
  | listOp => simp [createsJob] at h
  | statisticsOp => simp [createsJob] at h

theorem assignedIds_gt (ops : List Op) : ∀ st : ServerState, ∀ x ∈ assignedIds st ops,
    st.jobCounter < x := by
  induction ops with
  | nil =>
    intro st x hx
    simp [assignedIds] at hx
  | cons op ops ih =>
    intro st x hx
    have hmono := jobCounter_mono_step st op
    by_cases hc : createsJob op = true
    · simp only [assignedIds, if_pos hc] at hx
      rcases List.mem_cons.1 hx with heq | hmem
      · omega
      · have h1 := ih (step st op) x hmem
        omega
    · simp only [assignedIds, if_neg hc] at hx
      have h1 := ih (step st op) x hx
      omega

theorem assignedIds_pairwise (ops : List Op) : ∀ st : ServerState,
    List.Pairwise (fun a b => a < b) (assignedIds st ops) := by
  induction ops with
  | nil =>
    intro st
    simp [assignedIds]
  | cons op ops ih =>
    intro st
    by_cases hc : createsJob op = true
    · simp only [assignedIds, if_pos hc]
      refine List.Pairwise.cons ?_ (ih (step st op))
      intro x hx
      have h1 := assignedIds_gt ops (step st op) x hx
      have h2 := step_creates_counter st op hc
      omega
    · simp only [assignedIds, if_neg hc]
      exact ih (step st op)

/-! ### Reading a Status reply back -/

theorem Status_ok_inv (st : ServerState) (id : String) (now : Int) (r : StatusReply)
    (h : (ShellRunner.Status st id now).2 = Except.ok r) :
    ∃ j, lookupJob st.jobs id = some j ∧ r.status = j.Status := by
  unfold ShellRunner.Status at h
  cases hl : lookupJob st.jobs id with
  | none =>
    rw [hl] at h
    cases h
  | some j =>
    rw [hl] at h
    simp only [Except.ok.injEq] at h
    exact ⟨j, rfl, by rw [← h]⟩

/-! ### Statistics accumulate along a trace -/

theorem stats_execTrace (ops : List Op) : ∀ st : ServerState,
    (execTrace st ops).stats = (completionsOf ops).foldl updateStats st.stats := by
  induction ops with
  | nil => intro st; rfl
  | cons op ops ih =>
    intro st
    have h1 : execTrace st (op :: ops) = execTrace (step st op) ops := rfl
    rw [h1, ih (step st op)]
    cases op with
    | runOp args o t0 t1 =>
      cases hk : args.Keep <;>
        simp [completionsOf, step, ShellRunner.Run, hk]
    | backgroundOp c t0 => simp [completionsOf, step, ShellRunner.Background]
    | finishOp id t0 o t1 =>
      simp [completionsOf, step, ShellRunner.backgroundFinish]
    | statusOp id now =>
      cases hl : lookupJob st.jobs id <;>
        simp [completionsOf, step, ShellRunner.Status, hl]
    | outputOp args =>
      cases hl : lookupJob st.jobs args.ID with
      | none => simp [completionsOf, step, ShellRunner.Output, hl]
      | some job =>
        cases hr : args.Release <;>
          simp [completionsOf, step, ShellRunner.Output, hl, hr]
    | releaseOp id =>
      cases hl : lookupJob st.jobs id <;>
        simp [completionsOf, step, ShellRunner.Release, hl]
    | releaseAllOp => simp [completionsOf, step, ShellRunner.ReleaseAll]
    | listOp => simp [completionsOf, step, ShellRunner.ListJobs]
    | statisticsOp => simp [completionsOf, step, ShellRunner.Statistics]

theorem foldl_updateStats_count (ds : List Int) : ∀ s : ExecutionStatistics,
    (ds.foldl updateStats s).TotalCount = s.TotalCount + ds.length := by
  induction ds with
  | nil => intro s; simp
  | cons d ds ih =>
    intro s
    rw [List.foldl_cons, ih (updateStats s d)]
    simp [updateStats]
    omega

theorem foldl_updateStats_sum (ds : List Int) : ∀ s : ExecutionStatistics,
    (ds.foldl updateStats s).TotalDuration = s.TotalDuration + ds.sum := by
  induction ds with
  | nil => intro s; simp
  | cons d ds ih =>
    intro s
    rw [List.foldl_cons, ih (updateStats s d), List.sum_cons]
    simp [updateStats]
    omega

theorem foldl_updateStats_max_mono (ds : List Int) : ∀ s : ExecutionStatistics,
    s.MaxDuration ≤ (ds.foldl updateStats s).MaxDuration := by
  induction ds with
  | nil => intro s; exact le_rfl
  | cons d ds ih =>
    intro s
    rw [List.foldl_cons]
    refine le_trans ?_ (ih (updateStats s d))
    simp only [updateStats]
    split <;> omega

theorem foldl_updateStats_max_ge (ds : List Int) : ∀ s : ExecutionStatistics,
    ∀ d ∈ ds, d ≤ (ds.foldl updateStats s).MaxDuration := by
  induction ds with
  | nil =>
    intro s d hd
    simp at hd
  | cons d0 ds ih =>
    intro s d hd
    rcases List.mem_cons.1 hd with rfl | hmem
    · rw [List.foldl_cons]
      refine le_trans ?_ (foldl_updateStats_max_mono ds (updateStats s d))
      simp only [updateStats]
      split <;> omega
    · rw [List.foldl_cons]
      exact ih (updateStats s d0) d hmem

theorem foldl_updateStats_max_attained (ds : List Int) : ∀ s : ExecutionStatistics,
    (ds.foldl updateStats s).MaxDuration = s.MaxDuration ∨
    (ds.foldl updateStats s).MaxDuration ∈ ds := by
  induction ds with
  | nil => intro s; exact Or.inl rfl
  | cons d ds ih =>
    intro s
    rw [List.foldl_cons]
    rcases ih (updateStats s d) with heq | hmem
    · rw [heq]
      simp only [updateStats]
      split
      · exact Or.inr (List.mem_cons_self d ds)
      · exact Or.inl rfl
    · exact Or.inr (List.mem_cons_of_mem d hmem)

/-! ### Claim theorems -/

/-- C3: for every command outcome, the synchronous `Run` call succeeds
at the call level: a non-zero exit is reported through the reply's
`exit_code`, a command that could not be launched is reported as
`exit_code = -1`, and the reply always carries `stdout`, `stderr` and
`exit_code`. -/
theorem run_call_level_success (st : ServerState) (args : RunArgs) (o : ExecOutcome)
    (t0 t1 : Int) :
    ∃ r : RunReply, (ShellRunner.Run st args o t0 t1).2 = Except.ok r ∧
      r.stdout = o.stdout ∧ r.stderr = o.stderr ∧ r.exit_code = exitCodeOf o.result ∧
      (∀ c, o.result = CmdResult.exitErr c → r.exit_code = c) ∧
      (o.result = CmdResult.startErr → r.exit_code = -1) ∧
      (o.result = CmdResult.ok → r.exit_code = 0) := by
  cases hk : args.Keep
  · refine ⟨{ stdout := o.stdout, stderr := o.stderr, exit_code := exitCodeOf o.result,
              job_id := none }, ?_, rfl, rfl, rfl, ?_, ?_, ?_⟩
    · simp [ShellRunner.Run, hk]
    · intro c hc
      rw [hc]
      rfl
    · intro hc
      rw [hc]
      rfl
    · intro hc
      rw [hc]
      rfl
  · refine ⟨{ stdout := o.stdout, stderr := o.stderr, exit_code := exitCodeOf o.result,
              job_id := some (formatNat (st.jobCounter + 1)) }, ?_, rfl, rfl, rfl, ?_, ?_, ?_⟩
    · simp [ShellRunner.Run, hk]
    · intro c hc
      rw [hc]
      rfl
    · intro hc
      rw [hc]
      rfl
    · intro hc
      rw [hc]
      rfl

/-- Witness for C3 at a concrete spawn-failure run. -/
theorem run_call_level_success_witness :
    ∃ r : RunReply, (ShellRunner.Run initState { Command := "x", Keep := false }
        { stdout := "", stderr := "", result := CmdResult.startErr } 0 5).2 = Except.ok r ∧
      r.stdout = "" ∧ r.stderr = "" ∧ r.exit_code = exitCodeOf CmdResult.startErr ∧
      (∀ c, CmdResult.startErr = CmdResult.exitErr c → r.exit_code = c) ∧
      (CmdResult.startErr = CmdResult.startErr → r.exit_code = -1) ∧
      (CmdResult.startErr = CmdResult.ok → r.exit_code = 0) :=
  run_call_level_success initState { Command := "x", Keep := false }
    { stdout := "", stderr := "", result := CmdResult.startErr } 0 5

/-- C4 counterexample: the record kept for a spawn-failed synchronous
run has status `"exited"`, not `"errored"` as the claim states. -/
theorem run_keep_spawn_counterexample :
    (lookupJob spawnFailState.jobs (formatNat 1)).map BackgroundJob.Status = some "exited" ∧
    ¬(lookupJob spawnFailState.jobs (formatNat 1)).map BackgroundJob.Status = some "errored" := by
  constructor
  · rfl
  · intro h
    simp [spawnFailState, ShellRunner.Run, initState, insertJob,
      lookupJob, List.find?] at h

/-- C4 amended: for a kept synchronous run whose command could not be
launched, the persistent record has terminal status `"exited"` (not
`"errored"`) with sentinel exit code -1, and the call itself still
succeeds. -/
theorem run_keep_spawn_failure (st : ServerState) (cmd : String) (o : ExecOutcome)
    (t0 t1 : Int) (h : o.result = CmdResult.startErr) :
    ∃ j, lookupJob (ShellRunner.Run st { Command := cmd, Keep := true } o t0 t1).1.jobs
        (formatNat (st.jobCounter + 1)) = some j ∧
      j.Status = "exited" ∧ isTerminal j.Status = true ∧ j.ExitCode = -1 ∧
      ∃ r, (ShellRunner.Run st { Command := cmd, Keep := true } o t0 t1).2 = Except.ok r ∧
        r.exit_code = -1 ∧ r.job_id = some (formatNat (st.jobCounter + 1)) := by
  refine ⟨{ Command := cmd, Stdout := o.stdout, Stderr := o.stderr, StartTime := t0,
            EndTime := t1, Status := "exited", ExitCode := exitCodeOf o.result }, ?_, rfl,
          rfl, ?_, ?_⟩
  · have : (ShellRunner.Run st { Command := cmd, Keep := true } o t0 t1).1.jobs =
        insertJob st.jobs (formatNat (st.jobCounter + 1))
          { Command := cmd, Stdout := o.stdout, Stderr := o.stderr, StartTime := t0,
            EndTime := t1, Status := "exited", ExitCode := exitCodeOf o.result } := by
      simp [ShellRunner.Run]
    rw [this]
    exact lookupJob_insert_self st.jobs _ _
  · rw [h]
    rfl
  · refine ⟨{ stdout := o.stdout, stderr := o.stderr, exit_code := exitCodeOf o.result,
              job_id := some (formatNat (st.jobCounter + 1)) }, ?_, ?_, rfl⟩
    · simp [ShellRunner.Run]
    · rw [h]
      rfl

/-- Witness for C4's amended theorem at a concrete input. -/
theorem run_keep_spawn_failure_witness :
    ∃ j, lookupJob (ShellRunner.Run initState { Command := "x", Keep := true }
        { stdout := "", stderr := "", result := CmdResult.startErr } 0 5).1.jobs
        (formatNat (initState.jobCounter + 1)) = some j ∧
      j.Status = "exited" ∧ isTerminal j.Status = true ∧ j.ExitCode = -1 ∧
      ∃ r, (ShellRunner.Run initState { Command := "x", Keep := true }
          { stdout := "", stderr := "", result := CmdResult.startErr } 0 5).2 =
          Except.ok r ∧
        r.exit_code = -1 ∧ r.job_id = some (formatNat (initState.jobCounter + 1)) :=
  run_keep_spawn_failure initState "x"
    { stdout := "", stderr := "", result := CmdResult.startErr } 0 5 rfl

/-- C5: for an id present in the registry, `Status` replies with the
record's command, status, start time, and a duration computed as
`now - start` while the job is running and `end - start` once it is
terminal; for an absent id it fails with the not-found error. -/
theorem status_spec (st : ServerState) (id : String) (now : Int) (j : BackgroundJob) :
    (lookupJob st.jobs id = some j →
      (ShellRunner.Status st id now).2 = Except.ok
        { command := j.Command, status := j.Status, start_time := j.StartTime,
          duration_seconds := if j.Status == "running" then now - j.StartTime
                              else j.EndTime - j.StartTime }) ∧
    (lookupJob st.jobs id = none →
      (ShellRunner.Status st id now).2 =
        Except.error ("job with id " ++ id ++ " not found")) := by
  constructor
  · intro h
    simp [ShellRunner.Status, h]
  · intro h
    simp [ShellRunner.Status, h]

/-- Witness for C5 on a one-job registry and on a missing id. -/
theorem status_spec_witness :
    (lookupJob oneRunningState.jobs "1" = some runningJob ∧
      (ShellRunner.Status oneRunningState "1" 10).2 =
        Except.ok { command := "c", status := "running", start_time := 3,
                    duration_seconds := 7 }) ∧
    (lookupJob initState.jobs "9" = none ∧
      (ShellRunner.Status initState "9" 10).2 =
        Except.error ("job with id " ++ "9" ++ " not found")) := by
  constructor
  · refine ⟨by decide, ?_⟩
    have h := (status_spec oneRunningState "1" 10 runningJob).1 (by decide)
    exact h.trans rfl
  · refine ⟨rfl, ?_⟩
    exact (status_spec initState "9" 10 runningJob).2 rfl

/-- C10: a synchronous run with `keep = false` leaves the registry and
the id counter unchanged and its reply has no `job_id`; the reply of
any `Run` carries `job_id` exactly when `Keep` is set. -/
theorem run_no_keep_frame (st : ServerState) (cmd : String) (o : ExecOutcome)
    (t0 t1 : Int) (args : RunArgs) :
    (ShellRunner.Run st { Command := cmd, Keep := false } o t0 t1).1.jobs = st.jobs ∧
    (ShellRunner.Run st { Command := cmd, Keep := false } o t0 t1).1.jobCounter =
      st.jobCounter ∧
    (∃ r, (ShellRunner.Run st { Command := cmd, Keep := false } o t0 t1).2 = Except.ok r ∧
      r.job_id = none) ∧
    (∀ r, (ShellRunner.Run st args o t0 t1).2 = Except.ok r →
      r.job_id.isSome = args.Keep) := by
  refine ⟨by simp [ShellRunner.Run], by simp [ShellRunner.Run], ?_, ?_⟩
  · exact ⟨{ stdout := o.stdout, stderr := o.stderr, exit_code := exitCodeOf o.result,
             job_id := none }, by simp [ShellRunner.Run], rfl⟩
  · intro r hr
    cases hk : args.Keep
    · rw [ShellRunner.Run] at hr
      simp only [hk, Bool.false_eq_true, if_false, Except.ok.injEq] at hr
      rw [← hr]
      rfl
    · rw [ShellRunner.Run] at hr
      simp only [hk, if_true, Except.ok.injEq] at hr
      rw [← hr]
      rfl

/-- Witness for C10 at a concrete kept run. -/
theorem run_no_keep_frame_witness :
    (ShellRunner.Run initState { Command := "c", Keep := false }
        { stdout := "o", stderr := "", result := CmdResult.ok } 0 2).1.jobs =
      initState.jobs ∧
    (ShellRunner.Run initState { Command := "c", Keep := false }
        { stdout := "o", stderr := "", result := CmdResult.ok } 0 2).1.jobCounter =
      initState.jobCounter ∧
    (∃ r, (ShellRunner.Run initState { Command := "c", Keep := false }
        { stdout := "o", stderr := "", result := CmdResult.ok } 0 2).2 = Except.ok r ∧
      r.job_id = none) ∧
    (∀ r, (ShellRunner.Run initState { Command := "k", Keep := true }
        { stdout := "o", stderr := "", result := CmdResult.ok } 0 2).2 = Except.ok r →
      r.job_id.isSome = ({ Command := "k", Keep := true } : RunArgs).Keep) :=
  run_no_keep_frame initState "c" { stdout := "o", stderr := "", result := CmdResult.ok }
    0 2 { Command := "k", Keep := true }

/-- C6: `ReleaseAll` removes exactly the records whose status is
`"exited"` or `"errored"`, replies with the number removed, leaves
every running record present and unmodified, and on a registry with no
terminal records replies 0 and changes nothing. -/
theorem releaseAll_spec (st : ServerState)
    (hnd : (st.jobs.map Prod.fst).Nodup) :
    (ShellRunner.ReleaseAll st).2 =
      Except.ok (((st.jobs.filter (fun p => isTerminal p.2.Status)).length : Nat) : Int) ∧
    (∀ id j, lookupJob st.jobs id = some j → isTerminal j.Status = true →
      lookupJob (ShellRunner.ReleaseAll st).1.jobs id = none) ∧
    (∀ id j, lookupJob st.jobs id = some j → isTerminal j.Status = false →
      lookupJob (ShellRunner.ReleaseAll st).1.jobs id = some j) ∧
    (∀ id, lookupJob st.jobs id = none →
      lookupJob (ShellRunner.ReleaseAll st).1.jobs id = none) ∧
    ((∀ p ∈ st.jobs, isTerminal p.2.Status = false) →
      (ShellRunner.ReleaseAll st).1 = st ∧
      (ShellRunner.ReleaseAll st).2 = Except.ok 0) := by
  refine ⟨rfl, ?_, ?_, ?_, ?_⟩
  · intro id j hj hterm
    have h := lookupJob_filter_of_nodup st.jobs
      (fun p => !isTerminal p.2.Status) id j hnd hj
    simp only [hterm, Bool.not_true] at h
    simpa [ShellRunner.ReleaseAll] using h
  · intro id j hj hterm
    have h := lookupJob_filter_of_nodup st.jobs
      (fun p => !isTerminal p.2.Status) id j hnd hj
    simp only [hterm, Bool.not_false] at h
    simpa [ShellRunner.ReleaseAll] using h
  · intro id hid
    have h := lookupJob_filter_none st.jobs (fun p => !isTerminal p.2.Status) id hid
    simpa [ShellRunner.ReleaseAll] using h
  · intro hall
    have hself : st.jobs.filter (fun p => !isTerminal p.2.Status) = st.jobs :=
      List.filter_eq_self.2 (fun p hp => by rw [hall p hp]; rfl)
    have hnil : st.jobs.filter (fun p => isTerminal p.2.Status) = [] := by
      rw [List.filter_eq_nil_iff]
      intro p hp
      rw [hall p hp]
      decide
    constructor
    · show ({ st with jobs := st.jobs.filter (fun p => !isTerminal p.2.Status) }
        : ServerState) = st
      rw [hself]
    · show Except.ok (((st.jobs.filter (fun p => isTerminal p.2.Status)).length : Nat)
        : Int) = Except.ok 0
      rw [hnil]
      rfl

/-- Witness for C6 on a registry with one finished and one running job. -/
theorem releaseAll_spec_witness :
    (ShellRunner.ReleaseAll mixedState).2 =
      Except.ok (((mixedState.jobs.filter
        (fun p => isTerminal p.2.Status)).length : Nat) : Int) ∧
    (∀ id j, lookupJob mixedState.jobs id = some j → isTerminal j.Status = true →
      lookupJob (ShellRunner.ReleaseAll mixedState).1.jobs id = none) ∧
    (∀ id j, lookupJob mixedState.jobs id = some j → isTerminal j.Status = false →
      lookupJob (ShellRunner.ReleaseAll mixedState).1.jobs id = some j) ∧
    (∀ id, lookupJob mixedState.jobs id = none →
      lookupJob (ShellRunner.ReleaseAll mixedState).1.jobs id = none) ∧
    ((∀ p ∈ mixedState.jobs, isTerminal p.2.Status = false) →
      (ShellRunner.ReleaseAll mixedState).1 = mixedState ∧
      (ShellRunner.ReleaseAll mixedState).2 = Except.ok 0) :=
  releaseAll_spec mixedState (by decide)

/-- C7: a successful `Release` replies `true` and unbinds the id: a
following `Status`, `Output`, or second `Release` on the id fails with
the not-found message; the three operations also fail that way on an id
that is absent from the registry. -/
theorem release_semantics (st : ServerState) (id id₀ : String) (j : BackgroundJob)
    (now : Int) (rel : Bool)
    (h : lookupJob st.jobs id = some j) (h₀ : lookupJob st.jobs id₀ = none) :
    (ShellRunner.Release st id).2 = Except.ok true ∧
    lookupJob (ShellRunner.Release st id).1.jobs id = none ∧
    (ShellRunner.Status (ShellRunner.Release st id).1 id now).2 =
      Except.error ("job with id " ++ id ++ " not found") ∧
    (ShellRunner.Output (ShellRunner.Release st id).1 { ID := id, Release := rel }).2 =
      Except.error ("job with id " ++ id ++ " not found") ∧
    (ShellRunner.Release (ShellRunner.Release st id).1 id).2 =
      Except.error ("job with id " ++ id ++ " not found") ∧
    (ShellRunner.Status st id₀ now).2 =
      Except.error ("job with id " ++ id₀ ++ " not found") ∧
    (ShellRunner.Output st { ID := id₀, Release := rel }).2 =
      Except.error ("job with id " ++ id₀ ++ " not found") ∧
    (ShellRunner.Release st id₀).2 =
      Except.error ("job with id " ++ id₀ ++ " not found") := by
  have hrel : ShellRunner.Release st id =
      ({ st with jobs := eraseJob st.jobs id }, Except.ok true) := by
    simp [ShellRunner.Release, h]
  have hgone : lookupJob (eraseJob st.jobs id) id = none :=
    lookupJob_erase_self st.jobs id
  refine ⟨by rw [hrel], ?_, ?_, ?_, ?_, ?_, ?_, ?_⟩
  · rw [hrel]
    exact hgone
  · rw [hrel]
    simp [ShellRunner.Status, hgone]
  · rw [hrel]
    simp [ShellRunner.Output, hgone]
  · rw [hrel]
    simp [ShellRunner.Release, hgone]
  · simp [ShellRunner.Status, h₀]
  · simp [ShellRunner.Output, h₀]
  · simp [ShellRunner.Release, h₀]

/-- Witness for C7 on a registry with a present id "1" and absent
id "9". -/
theorem release_semantics_witness :
    (ShellRunner.Release mixedState "1").2 = Except.ok true ∧
    lookupJob (ShellRunner.Release mixedState "1").1.jobs "1" = none ∧
    (ShellRunner.Status (ShellRunner.Release mixedState "1").1 "1" 10).2 =
      Except.error ("job with id " ++ "1" ++ " not found") ∧
    (ShellRunner.Output (ShellRunner.Release mixedState "1").1
        { ID := "1", Release := false }).2 =
      Except.error ("job with id " ++ "1" ++ " not found") ∧
    (ShellRunner.Release (ShellRunner.Release mixedState "1").1 "1").2 =
      Except.error ("job with id " ++ "1" ++ " not found") ∧
    (ShellRunner.Status mixedState "9" 10).2 =
      Except.error ("job with id " ++ "9" ++ " not found") ∧
    (ShellRunner.Output mixedState { ID := "9", Release := false }).2 =
      Except.error ("job with id " ++ "9" ++ " not found") ∧
    (ShellRunner.Release mixedState "9").2 =
      Except.error ("job with id " ++ "9" ++ " not found") :=
  release_semantics mixedState "1" "9" exitedJob 10 false (by decide) (by decide)

/-- C8: `Output` with `release = true` replies the job's captured
stdout and stderr and removes the record in the same operation, so the
id no longer resolves afterwards; with `release = false` the state is
unchanged and a repeated call replies identical content. -/
theorem output_spec (st : ServerState) (id : String) (j : BackgroundJob)
    (h : lookupJob st.jobs id = some j) :
    (ShellRunner.Output st { ID := id, Release := true }).2 =
      Except.ok { stdout := j.Stdout, stderr := j.Stderr } ∧
    lookupJob (ShellRunner.Output st { ID := id, Release := true }).1.jobs id = none ∧
    (ShellRunner.Output st { ID := id, Release := false }).1 = st ∧
    (ShellRunner.Output st { ID := id, Release := false }).2 =
      Except.ok { stdout := j.Stdout, stderr := j.Stderr } ∧
    (ShellRunner.Output (ShellRunner.Output st { ID := id, Release := false }).1
        { ID := id, Release := false }).2 =
      (ShellRunner.Output st { ID := id, Release := false }).2 := by
  have h1 : ShellRunner.Output st { ID := id, Release := true } =
      ({ st with jobs := eraseJob st.jobs id },
        Except.ok { stdout := j.Stdout, stderr := j.Stderr }) := by
    simp [ShellRunner.Output, h]
  have h2 : ShellRunner.Output st { ID := id, Release := false } =
      (st, Except.ok { stdout := j.Stdout, stderr := j.Stderr }) := by
    simp [ShellRunner.Output, h]
  refine ⟨by rw [h1], ?_, by rw [h2], by rw [h2], ?_⟩
  · rw [h1]
    exact lookupJob_erase_self st.jobs id
  · have h3 : (ShellRunner.Output st { ID := id, Release := false }).1 = st := by
      rw [h2]
    rw [h3]

/-- Witness for C8 on a registry with a finished job under id "1". -/
theorem output_spec_witness :
    (ShellRunner.Output mixedState { ID := "1", Release := true }).2 =
      Except.ok { stdout := exitedJob.Stdout, stderr := exitedJob.Stderr } ∧
    lookupJob (ShellRunner.Output mixedState
      { ID := "1", Release := true }).1.jobs "1" = none ∧
    (ShellRunner.Output mixedState { ID := "1", Release := false }).1 = mixedState ∧
    (ShellRunner.Output mixedState { ID := "1", Release := false }).2 =
      Except.ok { stdout := exitedJob.Stdout, stderr := exitedJob.Stderr } ∧
    (ShellRunner.Output (ShellRunner.Output mixedState
        { ID := "1", Release := false }).1 { ID := "1", Release := false }).2 =
      (ShellRunner.Output mixedState { ID := "1", Release := false }).2 :=
  output_spec mixedState "1" exitedJob (by decide)

/-- C1: along any trace of engine events from the initial state, the
numeric ids minted by creating events (kept synchronous runs and
asynchronous launches) are strictly increasing — later ids are greater
and no id is ever reused, even after records are released — and their
decimal renderings (the wire ids) are pairwise distinct. -/
theorem job_ids_strictly_increasing (ops : List Op) :
    List.Pairwise (fun a b => a < b) (assignedIds initState ops) ∧
    List.Pairwise (fun a b => ¬a = b)
      ((assignedIds initState ops).map formatNat) := by
  refine ⟨assignedIds_pairwise ops initState, ?_⟩
  refine List.Pairwise.map formatNat ?_ (assignedIds_pairwise ops initState)
  intro a b hab hcon
  have := formatNat_injective hcon
  omega

/-- C2: a `Status` poll that observes a terminal status for an id is
never followed, along any continuation of the trace, by a `Status`
poll observing `running` for that id: every later successful poll of
the same id again reports a terminal status. -/
theorem status_monotonic (t1 t2 : List Op) (id : String) (r r2 : StatusReply)
    (na nb : Int)
    (h1 : (ShellRunner.Status (execTrace initState t1) id na).2 = Except.ok r)
    (hterm : isTerminal r.status = true)
    (h2 : (ShellRunner.Status (execTrace initState (t1 ++ t2)) id nb).2 = Except.ok r2) :
    isTerminal r2.status = true := by
  obtain ⟨j, hj, hrs⟩ := Status_ok_inv _ _ _ _ h1
  obtain ⟨j2, hj2, hrs2⟩ := Status_ok_inv _ _ _ _ h2
  have hwf : WfState (execTrace initState t1) := wf_trace t1 initState wf_init
  obtain ⟨k, hk1, hk2⟩ := hwf.2 id (lookupJob_mem_keys _ _ _ hj)
  have htg := terminalOrGone_trace t2 (execTrace initState t1) id hwf ⟨k, hk1, hk2⟩
    (Or.inr ⟨j, hj, by rwa [hrs] at hterm⟩)
  rw [← execTrace_append] at htg
  rcases htg with hnone | ⟨j3, hj3, ht3⟩
  · rw [hnone] at hj2
    cases hj2
  · rw [hj3] at hj2
    rw [hrs2, ← Option.some.inj hj2]
    exact ht3

/-- Witness for C2: a kept run creates job "1" already terminal, and a
later poll still reports a terminal status. -/
theorem status_monotonic_witness :
    isTerminal ({ command := "true", status := "exited", start_time := 0,
                  duration_seconds := 0 } : StatusReply).status = true :=
  status_monotonic
    [Op.runOp { Command := "true", Keep := true }
      { stdout := "", stderr := "", result := CmdResult.ok } 0 0]
    [Op.statusOp "1" 5] "1"
    { command := "true", status := "exited", start_time := 0, duration_seconds := 0 }
    { command := "true", status := "exited", start_time := 0, duration_seconds := 0 }
    4 9 rfl rfl rfl

/-- C9: the `Statistics` reply is computed from the aggregator's
running sums, which along any trace record one entry per completed
execution (synchronous runs and background completion callbacks):
`total_count` is the number of completions, the average is the total
duration over the count when the count is positive and 0 otherwise,
and the maximum bounds every recorded duration and is itself one of
them (or 0 when none exceeds 0). -/
theorem statistics_spec (ops : List Op) :
    ∃ r : StatisticsReply,
      (ShellRunner.Statistics (execTrace initState ops)).2 = Except.ok r ∧
      r.total_count = ((completionsOf ops).length : Int) ∧
      r.average_duration_seconds =
        (if 0 < (completionsOf ops).length then
          ((completionsOf ops).sum : Rat) / (((completionsOf ops).length : Nat) : Rat)
        else 0) ∧
      (∀ d ∈ completionsOf ops, d ≤ r.max_duration_seconds) ∧
      (r.max_duration_seconds = 0 ∨ r.max_duration_seconds ∈ completionsOf ops) := by
  have hst := stats_execTrace ops initState
  have hcount := foldl_updateStats_count (completionsOf ops) initState.stats
  have hsum := foldl_updateStats_sum (completionsOf ops) initState.stats
  have hc0 : initState.stats.TotalCount = 0 := rfl
  have hd0 : initState.stats.TotalDuration = 0 := rfl
  have hm0 : initState.stats.MaxDuration = 0 := rfl
  refine ⟨_, rfl, ?_, ?_, ?_, ?_⟩
  · show (execTrace initState ops).stats.TotalCount = ((completionsOf ops).length : Int)
    rw [hst, hcount, hc0]
    omega
  · show (if (execTrace initState ops).stats.TotalCount > 0 then
        ((execTrace initState ops).stats.TotalDuration : Rat) /
          ((execTrace initState ops).stats.TotalCount : Rat)
      else 0) =
      (if 0 < (completionsOf ops).length then
        ((completionsOf ops).sum : Rat) / (((completionsOf ops).length : Nat) : Rat)
      else 0)
    rw [hst, hcount, hsum, hc0, hd0]
    by_cases hl : 0 < (completionsOf ops).length
    · rw [if_pos (by omega : (0 : Int) + ((completionsOf ops).length : Int) > 0),
          if_pos hl]
      push_cast
      ring_nf
    · rw [if_neg (by omega : ¬((0 : Int) + ((completionsOf ops).length : Int) > 0)),
          if_neg hl]
  · show ∀ d ∈ completionsOf ops, d ≤ (execTrace initState ops).stats.MaxDuration
    rw [hst]
    exact foldl_updateStats_max_ge (completionsOf ops) initState.stats
  · show (execTrace initState ops).stats.MaxDuration = 0 ∨
      (execTrace initState ops).stats.MaxDuration ∈ completionsOf ops
    rw [hst]
    rcases foldl_updateStats_max_attained (completionsOf ops) initState.stats with
      heq | hmem
    · rw [heq, hm0]
      exact Or.inl rfl
    · exact Or.inr hmem

/-- Witness for C9 on a trace with one synchronous completion of
duration 3. -/
theorem statistics_spec_witness :
    ∃ r : StatisticsReply,
      (ShellRunner.Statistics (execTrace initState
        [Op.runOp { Command := "a", Keep := false }
          { stdout := "", stderr := "", result := CmdResult.ok } 0 3])).2 =
        Except.ok r ∧
      r.total_count = ((completionsOf
        [Op.runOp { Command := "a", Keep := false }
          { stdout := "", stderr := "", result := CmdResult.ok } 0 3]).length : Int) ∧
      r.average_duration_seconds =
        (if 0 < (completionsOf
            [Op.runOp { Command := "a", Keep := false }
              { stdout := "", stderr := "", result := CmdResult.ok } 0 3]).length then
          ((completionsOf
            [Op.runOp { Command := "a", Keep := false }
              { stdout := "", stderr := "", result := CmdResult.ok } 0 3]).sum : Rat) /
            (((completionsOf
              [Op.runOp { Command := "a", Keep := false }
                { stdout := "", stderr := "", result := CmdResult.ok } 0 3]).length
              : Nat) : Rat)
        else 0) ∧
      (∀ d ∈ completionsOf
          [Op.runOp { Command := "a", Keep := false }
            { stdout := "", stderr := "", result := CmdResult.ok } 0 3],
        d ≤ r.max_duration_seconds) ∧
      (r.max_duration_seconds = 0 ∨ r.max_duration_seconds ∈ completionsOf
        [Op.runOp { Command := "a", Keep := false }
          { stdout := "", stderr := "", result := CmdResult.ok } 0 3]) :=
  statistics_spec
    [Op.runOp { Command := "a", Keep := false }
      { stdout := "", stderr := "", result := CmdResult.ok } 0 3]
